import Mathlib

/-!
# Verification of the promptwise conversation core

Shallow embedding of the prompt-optimization backend: the delivery-strategy
selector `get_send_strategy`, the explanation formatter
`format_explanation_to_messages`, the Telegram conversation state machine of
`main.py` (`handle_prompt`, `handle_mode`, `handle_followup`,
`collect_questions`, `collect_answers`, `handle_explain` wired through the
`ConversationHandler` state table of `main`), and the FastAPI facade
endpoints (`optimize_endpoint`, `explain_endpoint`, `followup_endpoint`).

Python strings are modelled as Lean `String` (a list of characters);
`str.lower` is modelled character-wise, Python dictionaries of the
explanation record are modelled by a structure of optional lists (a missing
key and `dict.get` with a default collapse to `Option.getD`).
-/

namespace Promptwise

/-- Python `str.lower()`, modelled as a character-wise lowercase map. -/
def pyLower (s : String) : String := String.mk (s.data.map Char.toLower)

/-- The yes/no test used by `handle_followup` and `handle_explain` in
`main.py`: `update.message.text.lower().startswith("y")`, i.e. lower-case
the input and test whether it begins with the character `y`. -/
def isYes (s : String) : Bool :=
  match (pyLower s).data with
  | c :: _ => c == 'y'
  | [] => false

/-- Python `range(start, stop, step)` over naturals (the only use in the
source is `range(0, len(text), MAX_LENGTH)`). An empty list is returned for
a zero step, which Python would reject; the source never passes one. -/
def pyRange (start stop step : Nat) : List Nat :=
  if h : step = 0 ∨ stop ≤ start then [] else start :: pyRange (start + step) stop step
termination_by stop - start
decreasing_by
  push_neg at h
  omega

/-- Proof-friendly chunking companion for the slice comprehension of
`get_send_strategy`: split a character list into consecutive slices of `m`
characters (the final slice may be shorter). -/
def chunksOf : Nat → List Char → List (List Char)
  | _, [] => []
  | 0, _ :: _ => []
  | m + 1, c :: cs => ((c :: cs).take (m + 1)) :: chunksOf (m + 1) (cs.drop m)
termination_by _ l => l.length
decreasing_by
  simp
  omega

/-- The delivery strategies of `get_send_strategy`: a single message, a list
of chunk messages, or a file upload carrying the full text and a filename. -/
inductive Strategy where
  | text (t : String)
  | chunks (cs : List String)
  | file (content : String) (filename : String)
deriving DecidableEq

/-- The `MAX_LENGTH = 4000` constant of `get_send_strategy`. -/
def MAX_LENGTH : Nat := 4000

/-- The default `filename` parameter of `get_send_strategy`. -/
def defaultFilename : String := "response.txt"

/-- Embedding of `get_send_strategy` from `main.py` (identical in every file variant),
with the local constant `MAX_LENGTH` generalized to the parameter
`maxLength` (the spec contract `select(text, maxInlineSize)`); the source
instantiates it with 4000. The chunk branch is the comprehension
`[text[i:i + MAX_LENGTH] for i in range(0, len(text), MAX_LENGTH)]`. -/
def get_send_strategy (maxLength : Nat) (filename : String) (t : String) : Strategy :=
  if t.length ≤ maxLength then .text t
  else if t.length ≤ maxLength * 5 then
    .chunks ((pyRange 0 t.length maxLength).map (fun i => String.mk ((t.data.drop i).take maxLength)))
  else .file t filename

/-- The structured explanation record extracted from explanation text.
In the source it is a Python dict; `format_explanation_to_messages` reads
exactly the four list-valued places
`data.get("original_prompt", {}).get("strengths", [])`,
`...get("weaknesses", [])`, `data.get("llm_understanding_improvements", [])`
and `data.get("tips_for_future_prompts", [])`, so the record is modelled by
those four optional lists (`none` = key absent; `Option.getD []` models the
`dict.get` defaults). -/
structure ExplData where
  strengths : Option (List String)
  weaknesses : Option (List String)
  llm_understanding_improvements : Option (List String)
  tips_for_future_prompts : Option (List String)
deriving DecidableEq

/-- The fixed header message of `format_explanation_to_messages`. -/
def headerMessage : String := "🧠 *Prompt Feedback Analysis*"

/-- One itemized section message: the title followed by one bullet line per
item (`msg += f"\n• {s}"` in the source). -/
def renderSection (title : String) (items : List String) : String :=
  items.foldl (fun m s => m ++ "\n• " ++ s) title

/-- Embedding of `format_explanation_to_messages` from `main.py` lines 135-156: start
from the header, then append one section message per non-empty section, in
the order strengths, weaknesses, llm-understanding improvements, tips
(Python `if strengths:` is the non-emptiness test on a list). -/
def format_explanation_to_messages (d : ExplData) : List String :=
  let messages : List String := [headerMessage]
  let strengths := d.strengths.getD []
  let messages := if strengths.isEmpty then messages else
    messages ++ [renderSection "👍 *Original Prompt Strengths*" strengths]
  let weaknesses := d.weaknesses.getD []
  let messages := if weaknesses.isEmpty then messages else
    messages ++ [renderSection "👎 *Original Prompt Weaknesses*" weaknesses]
  let improvements := d.llm_understanding_improvements.getD []
  let messages := if improvements.isEmpty then messages else
    messages ++ [renderSection "🧠 *What LLMs Understand Better Now*" improvements]
  let tips := d.tips_for_future_prompts.getD []
  let messages := if tips.isEmpty then messages else
    messages ++ [renderSection "💡 *Tips for Future Prompts*" tips]
  messages

/-- The section messages of an explanation record in the fixed section
order strengths, weaknesses, llm-understanding improvements, tips, each
included exactly when its item list is non-empty (the spec's rendering
description, used as a normal form for `format_explanation_to_messages`). -/
def sectionBlocks (d : ExplData) : List String :=
  (if (d.strengths.getD []).isEmpty then [] else
    [renderSection "👍 *Original Prompt Strengths*" (d.strengths.getD [])])
  ++ (if (d.weaknesses.getD []).isEmpty then [] else
    [renderSection "👎 *Original Prompt Weaknesses*" (d.weaknesses.getD [])])
  ++ (if (d.llm_understanding_improvements.getD []).isEmpty then [] else
    [renderSection "🧠 *What LLMs Understand Better Now*" (d.llm_understanding_improvements.getD [])])
  ++ (if (d.tips_for_future_prompts.getD []).isEmpty then [] else
    [renderSection "💡 *Tips for Future Prompts*" (d.tips_for_future_prompts.getD [])])

lemma format_eq_header_cons (d : ExplData) :
    format_explanation_to_messages d = headerMessage :: sectionBlocks d := by
  simp only [format_explanation_to_messages, sectionBlocks]
  split_ifs <;> simp

/-- The collaborators imported from `prompt_engine`, which is not part of
this repository. Modelled from the spec: the three generation operations
aggregate a finite fragment sequence into one string
(`optimize_prompt`, `explain_prompt`, `deep_research_questions`);
`extract_json_from_response` scans for an embedded structured block and
returns it or none; the persistence operations `log_prompt_to_supabase`
(returning a record id), `save_deep_research_questions_separately` and
`save_explanation_separately` never fail the caller — a failed or skipped
write is signalled by a `none` result rather than an exception. -/
structure Engine where
  optimizeFn : String → String → String
  explainFn : String → String → String → String
  followupFn : String → String → String → String
  extractFn : String → Option ExplData
  logOptimizeFn : String → String → String → Option String
  logFollowupFn : Option String → String → String → Option String → Option Unit
  logExplanationFn : Option String → ExplData → Option Unit

/-- Presence of the persistence collaborator's configuration: truthiness of
`os.environ.get("SUPABASE_KEY")` and `os.environ.get("SUPABASE_URL")`. -/
structure EnvConfig where
  hasSupabaseKey : Bool
  hasSupabaseUrl : Bool
deriving DecidableEq

/-- Observable collaborator calls of one turn or one endpoint call, in
program order. Generation calls record their arguments; persistence calls
also record the collaborator's (ignored or stored) result. -/
inductive Ev where
  | optimizeCall (prompt mode : String)
  | explainCall (originalPrompt optimizedText mode : String)
  | followupCall (questionsAsked priorAnswer preferences : String)
  | logOptimization (prompt optimizedText mode : String) (result : Option String)
  | logFollowup (recordId : Option String) (questionsAsked answers : String)
      (preferences : Option String) (result : Option Unit)
  | logExplanation (recordId : Option String) (record : ExplData) (result : Option Unit)
deriving DecidableEq

/-- Outbound chat transport sends: `reply_text` or `reply_document`. -/
inductive Out where
  | msg (m : String)
  | doc (content : String) (filename : String)
deriving DecidableEq

/-- Dispatch on `get_send_strategy` as every handler does: one message for
`text`, one message per chunk for `chunks`, one document for `file`. -/
def sendByStrategy (t : String) : List Out :=
  match get_send_strategy MAX_LENGTH defaultFilename t with
  | .text s => [.msg s]
  | .chunks cs => cs.map .msg
  | .file c f => [.doc c f]

/-- The states of the `ConversationHandler` table of `main.py`:
`ASK_PROMPT`, `ASK_MODE`, `ASK_FOLLOWUP`, `ASK_FOLLOWUP + 10`
(collect questions), `ASK_FOLLOWUP + 11` (collect answers), `ASK_EXPLAIN`,
and `ConversationHandler.END`. -/
inductive ChatState where
  | askPrompt
  | askMode
  | askFollowup
  | collectQuestions
  | collectAnswers
  | askExplain
  | done
deriving DecidableEq

/-- The `context.user_data` dictionary of one conversation: keys `prompt`,
`mode`, `optimized`, `id`, `questions_asked`, `preferences` (`none` = key
not yet set; for `recordId` also a persistence write that returned no id). -/
structure SessionData where
  prompt : Option String
  mode : Option String
  optimized : Option String
  recordId : Option String
  questionsAsked : Option String
  preferences : Option String
deriving DecidableEq

/-- Empty `user_data` at conversation entry. -/
def initSession : SessionData := ⟨none, none, none, none, none, none⟩

/-- Result of one conversation turn: next state, updated session data,
collaborator calls and outbound sends of the turn, in order. -/
structure StepResult where
  state : ChatState
  data : SessionData
  events : List Ev
  outs : List Out
deriving DecidableEq

/-- One turn of the `main.py` conversation handlers on a text input.
Each branch is the body of the handler registered for the state:
`handle_prompt`, `handle_mode`, `handle_followup`, `collect_questions`,
`collect_answers`, `handle_explain`; a terminated conversation has no
handler and ignores input. The handlers consult no environment
configuration, so `env` is unused here (`main.py` calls
`log_prompt_to_supabase` and the save operations unconditionally). -/
def step (E : Engine) (_env : EnvConfig) (st : ChatState) (d : SessionData) (input : String) :
    StepResult :=
  match st with
  | .askPrompt =>
      ⟨.askMode, { d with prompt := some input }, [],
        [.msg "🔧 Enter the mode (e.g., clarity, deep_research, creative, etc):"]⟩
  | .askMode =>
      let prompt := d.prompt.getD ""
      let optimized := E.optimizeFn prompt input
      let id := E.logOptimizeFn prompt optimized input
      let d' := { d with mode := some input, optimized := some optimized, recordId := id }
      let evs := [Ev.optimizeCall prompt input, Ev.logOptimization prompt optimized input id]
      let outs := Out.msg "⚙️ Optimizing your prompt..." :: sendByStrategy optimized
      if input == "deep_research" then
        ⟨.askFollowup, d', evs, outs ++ [.msg "🤔 Want to answer follow-up questions? (yes/no)"]⟩
      else
        ⟨.askExplain, d', evs, outs ++ [.msg "📘 Want explanation of the optimization? (yes/no)"]⟩
  | .askFollowup =>
      if isYes input then
        ⟨.collectQuestions, d, [], [.msg "📝 Please enter the questions the model asked:"]⟩
      else
        ⟨.askExplain, d, [], [.msg "📘 Want explanation of the optimization? (yes/no)"]⟩
  | .collectQuestions =>
      ⟨.collectAnswers, { d with questionsAsked := some input }, [],
        [.msg "📋 Any preferences/answers? (or type \x27no\x27)"]⟩
  | .collectAnswers =>
      let prefs := if pyLower input == "no" then "" else input
      let questions := d.questionsAsked.getD ""
      let prior := d.optimized.getD ""
      let response := E.followupFn questions prior prefs
      let saveRes := E.logFollowupFn d.recordId questions response (some prefs)
      ⟨.askExplain, { d with preferences := some prefs },
        [Ev.followupCall questions prior prefs,
         Ev.logFollowup d.recordId questions response (some prefs) saveRes],
        sendByStrategy response ++ [.msg "📘 Want explanation of the optimization? (yes/no)"]⟩
  | .askExplain =>
      if isYes input then
        let explanation := E.explainFn (d.prompt.getD "") (d.optimized.getD "") (d.mode.getD "")
        match E.extractFn explanation with
        | some r =>
            let saveRes := E.logExplanationFn d.recordId r
            ⟨.done, d,
              [Ev.explainCall (d.prompt.getD "") (d.optimized.getD "") (d.mode.getD ""),
               Ev.logExplanation d.recordId r saveRes],
              (format_explanation_to_messages r).map Out.msg⟩
        | none =>
            ⟨.done, d,
              [Ev.explainCall (d.prompt.getD "") (d.optimized.getD "") (d.mode.getD "")],
              [.msg explanation]⟩
      else
        ⟨.done, d, [], [.msg "✅ Done. Use /start to begin again."]⟩
  | .done => ⟨.done, d, [], []⟩

/-- Result of a whole conversation run: final state and session data, all
collaborator calls and all outbound sends, in order. -/
structure RunResult where
  state : ChatState
  data : SessionData
  events : List Ev
  outs : List Out
deriving DecidableEq

/-- Run the conversation state machine over a list of text inputs. -/
def run (E : Engine) (env : EnvConfig) : ChatState → SessionData → List String → RunResult
  | st, d, [] => ⟨st, d, [], []⟩
  | st, d, x :: xs =>
      let r := step E env st d x
      let rest := run E env r.state r.data xs
      ⟨rest.state, rest.data, r.events ++ rest.events, r.outs ++ rest.outs⟩

/-- A full conversation: the `/start` entry command creates a fresh session
in the `ASK_PROMPT` state, then the inputs are processed in order. -/
def runChat (E : Engine) (env : EnvConfig) (inputs : List String) : RunResult :=
  run E env .askPrompt initSession inputs

/-- Response shape of `POST /optimize`: `{"id": id, "optimized_prompt": optimized}`. -/
structure OptimizeResponse where
  id : Option String
  optimized_prompt : String
deriving DecidableEq

/-- Embedding of `optimize_endpoint` of `main.py`: aggregate the optimize generation,
then log to the store only when both `SUPABASE_KEY` and `SUPABASE_URL` are
configured (`id` stays `None` otherwise), and return id plus text. -/
def optimize_endpoint (E : Engine) (env : EnvConfig) (prompt mode : String) :
    OptimizeResponse × List Ev :=
  let optimized := E.optimizeFn prompt mode
  if env.hasSupabaseKey && env.hasSupabaseUrl then
    let id := E.logOptimizeFn prompt optimized mode
    (⟨id, optimized⟩,
      [Ev.optimizeCall prompt mode, Ev.logOptimization prompt optimized mode id])
  else
    (⟨none, optimized⟩, [Ev.optimizeCall prompt mode])

/-- Embedding of `explain_endpoint` of `main.py`: aggregate the explain generation; when
credentials are configured, attempt extraction and persist the structured
record (under the constant id `"external-user"`, since `ExplainRequest` has
no `prompt_id` field) only when one was found; always return the text. -/
def explain_endpoint (E : Engine) (env : EnvConfig)
    (original_prompt optimized_prompt mode : String) : String × List Ev :=
  let explanation := E.explainFn original_prompt optimized_prompt mode
  let evs := [Ev.explainCall original_prompt optimized_prompt mode]
  if env.hasSupabaseKey && env.hasSupabaseUrl then
    match E.extractFn explanation with
    | some r =>
        (explanation,
          evs ++ [Ev.logExplanation (some "external-user") r
            (E.logExplanationFn (some "external-user") r)])
    | none => (explanation, evs)
  else
    (explanation, evs)

/-- Embedding of `followup_endpoint` of `main.py`: aggregate the follow-up generation
(with `data.preferences or ""`), persist keyed by `prompt_id` whenever that
string is truthy (non-empty) — no credential check — and return the text. -/
def followup_endpoint (E : Engine) (_env : EnvConfig)
    (prompt_id questions_asked answers : String) (preferences : Option String) :
    String × List Ev :=
  let response := E.followupFn questions_asked answers (preferences.getD "")
  let evs := [Ev.followupCall questions_asked answers (preferences.getD "")]
  if prompt_id ≠ "" then
    (response,
      evs ++ [Ev.logFollowup (some prompt_id) questions_asked response preferences
        (E.logFollowupFn (some prompt_id) questions_asked response preferences)])
  else
    (response, evs)

/-- Events that are generation calls requiring a populated optimize result:
the explain call and the follow-up call. -/
def isDependentCall : Ev → Bool
  | .explainCall _ _ _ => true
  | .followupCall _ _ _ => true
  | _ => false

/-- Events that are the optimize generation call of `handle_mode`. -/
def isGenOptimize : Ev → Bool
  | .optimizeCall _ _ => true
  | _ => false

/-- Every explain or follow-up call in the trace is preceded by an earlier
optimize call. -/
def OptPrecedes (evs : List Ev) : Prop :=
  ∀ i : Nat, ∀ h : i < evs.length, isDependentCall (evs.get ⟨i, h⟩) = true →
    ∃ j : Nat, ∃ h2 : j < evs.length, j < i ∧ isGenOptimize (evs.get ⟨j, h2⟩) = true

lemma optPrecedes_nil : OptPrecedes [] := by
  intro i h
  simp at h

lemma optPrecedes_cons_opt (e : Ev) (rest : List Ev) (hopt : isGenOptimize e = true)
    (hdep : isDependentCall e = false) : OptPrecedes (e :: rest) := by
  intro i h hi
  match i with
  | 0 =>
      have he : (e :: rest).get ⟨0, h⟩ = e := rfl
      rw [he, hdep] at hi
      cases hi
  | k + 1 =>
      exact ⟨0, by simp, by omega, hopt⟩

/-- C1: in every conversation run, every explain call and every follow-up
call is preceded in the event trace by an earlier optimize call: the only
path into the follow-up and explain handlers goes through the optimize
action of `handle_mode`. -/
theorem explain_followup_after_optimize (E : Engine) (env : EnvConfig)
    (inputs : List String) : OptPrecedes (runChat E env inputs).events := by
  cases inputs with
  | nil => exact optPrecedes_nil
  | cons x xs =>
    cases xs with
    | nil =>
        simp only [runChat, run, step]
        exact optPrecedes_nil
    | cons y ys =>
        have hex : ∃ l, (runChat E env (x :: y :: ys)).events = Ev.optimizeCall x y :: l := by
          simp only [runChat, run, step]
          by_cases hy : (y == "deep_research") = true <;> simp [hy]
        obtain ⟨l, hl⟩ := hex
        rw [hl]
        exact optPrecedes_cons_opt _ _ rfl rfl

/-- C1 witness: a concrete full run (deep-research mode, follow-up and
explain both taken) satisfies the precedence property. -/
theorem explain_followup_after_optimize_witness :
    OptPrecedes (runChat
      ⟨fun p _ => p, fun _ _ _ => "e", fun q _ _ => q, fun _ => none,
        fun _ _ _ => some "rec-1", fun _ _ _ _ => some (), fun _ _ => some ()⟩
      ⟨true, true⟩ ["p", "deep_research", "yes", "q1", "no", "yes"]).events :=
  explain_followup_after_optimize _ _ _

/-- C2: from the `ASK_MODE` state, the session enters the follow-up
decision state exactly when the entered mode is `deep_research`; every
other mode goes to the explain decision state; and in either case the
optimize call of `handle_mode` has been made in that same turn. -/
theorem deep_research_iff_followup_branch (E : Engine) (env : EnvConfig)
    (d : SessionData) (mode : String) :
    ((step E env .askMode d mode).state = .askFollowup ↔ mode = "deep_research")
    ∧ (mode ≠ "deep_research" → (step E env .askMode d mode).state = .askExplain)
    ∧ Ev.optimizeCall (d.prompt.getD "") mode ∈ (step E env .askMode d mode).events := by
  by_cases hy : mode = "deep_research" <;> simp [step, hy]

/-- C2 witness: mode `deep_research` enters the follow-up decision, mode
`clarity` enters the explain decision. -/
theorem deep_research_iff_followup_branch_witness :
    (step
      ⟨fun p _ => p, fun _ _ _ => "e", fun q _ _ => q, fun _ => none,
        fun _ _ _ => some "rec-1", fun _ _ _ _ => some (), fun _ _ => some ()⟩
      ⟨true, true⟩ .askMode initSession "deep_research").state = .askFollowup
    ∧ (step
      ⟨fun p _ => p, fun _ _ _ => "e", fun q _ _ => q, fun _ => none,
        fun _ _ _ => some "rec-1", fun _ _ _ _ => some (), fun _ _ => some ()⟩
      ⟨true, true⟩ .askMode initSession "clarity").state = .askExplain :=
  ⟨(deep_research_iff_followup_branch _ _ _ _).1.mpr rfl,
   (deep_research_iff_followup_branch _ _ _ _).2.1 (by decide)⟩

lemma isYes_iff (s : String) :
    isYes s = true ↔ ∃ c cs, s.data = c :: cs ∧ c.toLower = 'y' := by
  unfold isYes pyLower
  cases hd : s.data with
  | nil => simp [hd]
  | cons c cs => simp [hd]

/-- C5: at both yes/no steps the input is treated as affirmative exactly
when its first character, lowered, is `y`: the follow-up decision enters
the question-collection state iff so, and the explain decision performs the
explain call iff so; every other input takes the negative branch. -/
theorem yes_no_first_char_lowered (E : Engine) (env : EnvConfig)
    (d : SessionData) (s : String) :
    ((step E env .askFollowup d s).state = .collectQuestions ↔
      ∃ c cs, s.data = c :: cs ∧ c.toLower = 'y')
    ∧ ((∃ e ∈ (step E env .askExplain d s).events, isDependentCall e = true) ↔
      ∃ c cs, s.data = c :: cs ∧ c.toLower = 'y') := by
  rw [← isYes_iff]
  by_cases hs : isYes s <;> simp [step, hs]
  cases hx : E.extractFn (E.explainFn (d.prompt.getD "") (d.optimized.getD "") (d.mode.getD ""))
    <;> simp [isDependentCall]

/-- C5 witness: input `Yep` (leading `Y`) is affirmative at the follow-up
decision; input `ok` is negative. -/
theorem yes_no_first_char_lowered_witness :
    (step
      ⟨fun p _ => p, fun _ _ _ => "e", fun q _ _ => q, fun _ => none,
        fun _ _ _ => some "rec-1", fun _ _ _ _ => some (), fun _ _ => some ()⟩
      ⟨true, true⟩ .askFollowup initSession "Yep").state = .collectQuestions
    ∧ ¬ (step
      ⟨fun p _ => p, fun _ _ _ => "e", fun q _ _ => q, fun _ => none,
        fun _ _ _ => some "rec-1", fun _ _ _ _ => some (), fun _ _ => some ()⟩
      ⟨true, true⟩ .askFollowup initSession "ok").state = .collectQuestions :=
  ⟨(yes_no_first_char_lowered _ _ _ _).1.mpr ⟨'Y', "ep".data, rfl, by decide⟩,
   fun h => by
    obtain ⟨c, cs, hd, hc⟩ := (yes_no_first_char_lowered
      ⟨fun p _ => p, fun _ _ _ => "e", fun q _ _ => q, fun _ => none,
        fun _ _ _ => some "rec-1", fun _ _ _ _ => some (), fun _ _ => some ()⟩
      ⟨true, true⟩ initSession "ok").1.mp h
    have hd' : ('o' :: ['k'] : List Char) = c :: cs := hd
    rw [← (List.cons.inj hd').1] at hc
    exact absurd hc (by decide)⟩

lemma string_eq_of_data_eq {s t : String} (h : s.data = t.data) : s = t := by
  cases s
  cases t
  exact congrArg String.mk h

lemma pyRange_eq_nil {start stop step : Nat} (h : step = 0 ∨ stop ≤ start) :
    pyRange start stop step = [] := by
  rw [pyRange, dif_pos h]

lemma pyRange_eq_cons {start stop step : Nat} (h1 : step ≠ 0) (h2 : start < stop) :
    pyRange start stop step = start :: pyRange (start + step) stop step := by
  rw [pyRange, dif_neg (by omega)]

lemma pyRange_shift (s : Nat) (hs : 1 ≤ s) :
    ∀ n a b, b - a ≤ n → pyRange (a + s) b s = (pyRange a (b - s) s).map (· + s) := by
  intro n
  induction n with
  | zero =>
      intro a b hb
      rw [@pyRange_eq_nil (a + s) b s (Or.inr (by omega)),
        @pyRange_eq_nil a (b - s) s (Or.inr (by omega))]
      simp
  | succ n ih =>
      intro a b hb
      by_cases hba : b ≤ a + s
      · rw [@pyRange_eq_nil (a + s) b s (Or.inr hba),
          @pyRange_eq_nil a (b - s) s (Or.inr (by omega))]
        simp
      · rw [@pyRange_eq_cons (a + s) b s (by omega) (by omega),
          @pyRange_eq_cons a (b - s) s (by omega) (by omega)]
        simp only [List.map_cons]
        refine congrArg (_ :: ·) ?_
        exact ih (a + s) b (by omega)

lemma pyRange_map_take_drop (m : Nat) (l : List Char) : 1 ≤ m →
    (pyRange 0 l.length m).map (fun i => (l.drop i).take m) = chunksOf m l := by
  induction m, l using chunksOf.induct with
  | case1 x =>
      intro _
      rw [pyRange, dif_pos (Or.inr (by simp))]
      simp [chunksOf]
  | case2 c cs =>
      intro h
      omega
  | case3 m c cs ih =>
      intro _
      rw [pyRange, dif_neg (by simp)]
      simp only [List.map_cons, List.drop_zero]
      rw [chunksOf]
      refine congrArg (_ :: ·) ?_
      rw [pyRange_shift (m + 1) (by omega) (c :: cs).length 0 (c :: cs).length (by omega)]
      rw [List.map_map]
      have hlen : (c :: cs).length - (m + 1) = (cs.drop m).length := by
        simp
      rw [hlen]
      have hfun : ∀ i ∈ pyRange 0 (cs.drop m).length (m + 1),
          ((fun i => ((c :: cs).drop i).take (m + 1)) ∘ (· + (m + 1))) i
            = (fun i => ((cs.drop m).drop i).take (m + 1)) i := by
        intro i _
        simp only [Function.comp]
        have h1 : (c :: cs).drop (i + (m + 1)) = ((c :: cs).drop (m + 1)).drop i := by
          rw [List.drop_drop, Nat.add_comm i (m + 1)]
        rw [h1, List.drop_succ_cons]
      rw [List.map_congr_left hfun, ih (by omega)]

lemma chunksOf_flatten (m : Nat) (l : List Char) : 1 ≤ m → (chunksOf m l).flatten = l := by
  induction m, l using chunksOf.induct with
  | case1 x =>
      intro _
      simp [chunksOf]
  | case2 c cs =>
      intro h
      omega
  | case3 m c cs ih =>
      intro _
      rw [chunksOf, List.flatten_cons, ih (by omega)]
      exact List.take_append_drop (m + 1) (c :: cs)

lemma chunksOf_length (m : Nat) (l : List Char) : 1 ≤ m →
    (chunksOf m l).length = (l.length + m - 1) / m := by
  induction m, l using chunksOf.induct with
  | case1 x =>
      intro h
      rw [chunksOf]
      simp only [List.length_nil]
      rw [Nat.div_eq_of_lt (by omega)]
  | case2 c cs =>
      intro h
      omega
  | case3 m c cs ih =>
      intro _
      rw [chunksOf]
      simp only [List.length_cons]
      rw [ih (by omega)]
      simp only [List.length_drop, List.length_cons]
      have hrhs : cs.length + 1 + (m + 1) - 1 = cs.length + (m + 1) := by omega
      rw [hrhs, Nat.add_div_right _ (by omega)]
      by_cases hls : cs.length + 1 ≤ m + 1
      · have h1 : cs.length - m = 0 := by omega
        rw [h1]
        rw [Nat.div_eq_of_lt (by omega), Nat.div_eq_of_lt (by omega)]
      · have h1 : cs.length - m + (m + 1) - 1 = cs.length := by omega
        rw [h1]

lemma chunksOf_get (m : Nat) (l : List Char) : 1 ≤ m →
    ∀ i : Nat, ∀ h : i < (chunksOf m l).length,
      (chunksOf m l)[i] = (l.drop (i * m)).take m := by
  induction m, l using chunksOf.induct with
  | case1 x =>
      intro _ i h
      simp [chunksOf] at h
  | case2 c cs =>
      intro h
      omega
  | case3 m c cs ih =>
      intro _ i h
      have hc : chunksOf (m + 1) (c :: cs)
          = ((c :: cs).take (m + 1)) :: chunksOf (m + 1) (cs.drop m) := by
        rw [chunksOf]
      match i with
      | 0 => simp only [hc, List.getElem_cons_zero, Nat.zero_mul, List.drop_zero]
      | i + 1 =>
          have hlt : i < (chunksOf (m + 1) (cs.drop m)).length := by
            rw [hc] at h
            simpa using h
          simp only [hc, List.getElem_cons_succ]
          rw [ih (by omega) i hlt, List.drop_drop]
          have he : (i + 1) * (m + 1) = (m + i * (m + 1)) + 1 := by ring
          rw [he, List.drop_succ_cons]

lemma chunksOf_dropLast (m : Nat) (l : List Char) : 1 ≤ m →
    ∀ x ∈ (chunksOf m l).dropLast, x.length = m := by
  induction m, l using chunksOf.induct with
  | case1 x =>
      intro _ x hx
      simp [chunksOf] at hx
  | case2 c cs =>
      intro h
      omega
  | case3 m c cs ih =>
      intro _ x hx
      have hc : chunksOf (m + 1) (c :: cs)
          = ((c :: cs).take (m + 1)) :: chunksOf (m + 1) (cs.drop m) := by
        rw [chunksOf]
      rw [hc] at hx
      cases hr : chunksOf (m + 1) (cs.drop m) with
      | nil =>
          rw [hr] at hx
          simp at hx
      | cons r rs =>
          rw [hr, List.dropLast_cons₂] at hx
          have hne : cs.drop m ≠ [] := by
            intro h0
            rw [h0] at hr
            simp [chunksOf] at hr
          have hmlt : m < cs.length := by
            have := List.length_drop m cs
            by_contra hcon
            exact hne (List.drop_eq_nil_of_le (by omega))
          rcases List.mem_cons.mp hx with hx1 | hx2
          · subst hx1
            simp only [List.length_take, List.length_cons]
            omega
          · exact ih (by omega) x (by rw [hr]; exact hx2)

lemma string_join_data : ∀ (l : List String) (s : String),
    (l.foldl (· ++ ·) s).data = s.data ++ (l.map String.data).flatten
  | [], s => by simp
  | t :: ts, s => by
      simp only [List.foldl_cons, List.map_cons, List.flatten_cons]
      rw [string_join_data ts (s ++ t), String.data_append]
      simp

/-- C3: for `m < length(t) <= 5*m` the selector returns `Chunked`; the
slices are the consecutive non-overlapping `m`-character substrings of `t`
in original order (slice `i` is characters `i*m` to `i*m + m`), their
concatenation is exactly `t`, every slice except possibly the last has
exactly `m` characters, and the slice count is `ceil(length(t)/m)`. -/
theorem select_chunked_partition (m : Nat) (filename : String) (t : String)
    (h1 : m < t.length) (h2 : t.length ≤ 5 * m) :
    ∃ cs : List String, get_send_strategy m filename t = .chunks cs
      ∧ String.join cs = t
      ∧ cs.length = (t.length + m - 1) / m
      ∧ (∀ i : Nat, ∀ h : i < cs.length, cs.get ⟨i, h⟩ = String.mk ((t.data.drop (i * m)).take m))
      ∧ (∀ c ∈ cs.dropLast, c.length = m) := by
  have hm : 1 ≤ m := by omega
  refine ⟨(chunksOf m t.data).map String.mk, ?_, ?_, ?_, ?_, ?_⟩
  · unfold get_send_strategy
    rw [if_neg (by omega), if_pos (by omega)]
    refine congrArg Strategy.chunks ?_
    have hmm : (pyRange 0 t.length m).map (fun i => String.mk ((t.data.drop i).take m))
        = ((pyRange 0 t.length m).map (fun i => (t.data.drop i).take m)).map String.mk := by
      rw [List.map_map]
      rfl
    rw [hmm, show t.length = t.data.length from rfl, pyRange_map_take_drop m t.data hm]
  · apply string_eq_of_data_eq
    have hj : (String.join ((chunksOf m t.data).map String.mk)).data
        = ("" : String).data ++ (((chunksOf m t.data).map String.mk).map String.data).flatten :=
      string_join_data _ _
    rw [hj, List.map_map]
    have hmapid : (chunksOf m t.data).map (String.data ∘ String.mk) = chunksOf m t.data := by
      have hid : String.data ∘ String.mk = id := rfl
      rw [hid, List.map_id]
    rw [hmapid, chunksOf_flatten m t.data hm]
    rfl
  · rw [List.length_map, chunksOf_length m t.data hm]
    rfl
  · intro i h
    rw [List.get_eq_getElem]
    have hlt : i < (chunksOf m t.data).length := by simpa using h
    rw [List.getElem_map, chunksOf_get m t.data hm i hlt]
  · intro c hc
    rw [← List.map_dropLast] at hc
    obtain ⟨x, hx, rfl⟩ := List.mem_map.mp hc
    exact chunksOf_dropLast m t.data hm x hx

/-- C3 witness: a text of 12000 characters with `m = 4000` is chunked, with
`ceil(12000/4000) = 3` slices. -/
theorem select_chunked_partition_witness :
    4000 < (String.mk (List.replicate 12000 'a')).length
    ∧ (String.mk (List.replicate 12000 'a')).length ≤ 5 * 4000
    ∧ (12000 + 4000 - 1) / 4000 = 3
    ∧ (∃ cs : List String,
        get_send_strategy 4000 defaultFilename (String.mk (List.replicate 12000 'a')) = .chunks cs
        ∧ String.join cs = String.mk (List.replicate 12000 'a')
        ∧ cs.length = ((String.mk (List.replicate 12000 'a')).length + 4000 - 1) / 4000
        ∧ (∀ i : Nat, ∀ h : i < cs.length,
            cs.get ⟨i, h⟩
              = String.mk (((String.mk (List.replicate 12000 'a')).data.drop (i * 4000)).take 4000))
        ∧ (∀ c ∈ cs.dropLast, c.length = 4000)) := by
  have hlen : (String.mk (List.replicate 12000 'a')).length = 12000 := by
    show (List.replicate 12000 'a').length = 12000
    rw [List.length_replicate]
  exact ⟨by rw [hlen]; omega, by rw [hlen]; omega, by norm_num,
    select_chunked_partition 4000 defaultFilename _ (by rw [hlen]; omega) (by rw [hlen]; omega)⟩

/-- C4: for `length(t) <= m` the selector returns `Inline` carrying `t`
unchanged; for `length(t) > 5*m` it returns `Attachment` carrying the
complete untruncated `t` together with the default filename. -/
theorem select_inline_and_attachment (m : Nat) (t : String) :
    (t.length ≤ m → get_send_strategy m defaultFilename t = .text t)
    ∧ (5 * m < t.length → get_send_strategy m defaultFilename t = .file t defaultFilename) := by
  constructor
  · intro h
    unfold get_send_strategy
    rw [if_pos h]
  · intro h
    unfold get_send_strategy
    rw [if_neg (by omega), if_neg (by omega)]

/-- C4 witness: a 1-character text with `m = 1` is sent inline; a
6-character text with `m = 1` is sent as an attachment with the default
filename. -/
theorem select_inline_and_attachment_witness :
    ("a".length ≤ 1 ∧ get_send_strategy 1 defaultFilename "a" = .text "a")
    ∧ (5 * 1 < "aaaaaa".length
      ∧ get_send_strategy 1 defaultFilename "aaaaaa" = .file "aaaaaa" defaultFilename) :=
  ⟨⟨by decide, (select_inline_and_attachment 1 "a").1 (by decide)⟩,
   ⟨by decide, (select_inline_and_attachment 1 "aaaaaa").2 (by decide)⟩⟩

/-- A concrete engine for witness instantiations. -/
def E0 : Engine :=
  ⟨fun p _ => p, fun _ _ _ => "e", fun q _ _ => q, fun _ => none,
    fun _ _ _ => some "rec-1", fun _ _ _ _ => some (), fun _ _ => some ()⟩

/-- Both persistence credentials configured. -/
def env0 : EnvConfig := ⟨true, true⟩

/-- Both persistence credentials absent. -/
def envNone : EnvConfig := ⟨false, false⟩

/-- C10: for every explanation record, the formatter output is non-empty,
starts with the fixed header, consists of the header followed by the
section messages in fixed order with empty sections skipped, has exactly
one message per non-empty section besides the header, and collapses to the
one-element header list when every section is empty or absent. -/
theorem format_header_and_sections (d : ExplData) :
    format_explanation_to_messages d = headerMessage :: sectionBlocks d
    ∧ (format_explanation_to_messages d).head? = some headerMessage
    ∧ format_explanation_to_messages d ≠ []
    ∧ (format_explanation_to_messages d).length
        = 1 + ([d.strengths.getD [], d.weaknesses.getD [],
            d.llm_understanding_improvements.getD [],
            d.tips_for_future_prompts.getD []].countP (fun l => !l.isEmpty))
    ∧ ((d.strengths.getD [] = [] ∧ d.weaknesses.getD [] = []
        ∧ d.llm_understanding_improvements.getD [] = []
        ∧ d.tips_for_future_prompts.getD [] = []) →
        format_explanation_to_messages d = [headerMessage]) := by
  refine ⟨format_eq_header_cons d, ?_, ?_, ?_, ?_⟩
  · rw [format_eq_header_cons]
    rfl
  · rw [format_eq_header_cons]
    simp
  · rw [format_eq_header_cons]
    simp only [sectionBlocks, List.countP_cons, List.countP_nil, List.length_cons,
      List.length_append]
    split_ifs <;> simp_all
  · intro hall
    obtain ⟨hs, hw, hi, ht⟩ := hall
    rw [format_eq_header_cons]
    simp [sectionBlocks, hs, hw, hi, ht]

/-- C10 witness: a record whose sections are absent or empty formats to
exactly the one-element header list. -/
theorem format_header_and_sections_witness :
    format_explanation_to_messages ⟨none, some [], none, some []⟩ = [headerMessage] :=
  (format_header_and_sections ⟨none, some [], none, some []⟩).2.2.2.2 ⟨rfl, rfl, rfl, rfl⟩

/-- C6: at the explain decision with an affirmative input, when extraction
finds a structured record the record is persisted and the outputs are the
header plus the non-empty sections in fixed order (the formatter's
messages); when extraction finds none, the raw explanation text is emitted
as the single message and no structured record is persisted. -/
theorem explain_structured_or_raw (E : Engine) (env : EnvConfig) (d : SessionData)
    (s : String) (hy : isYes s = true) :
    (∀ x, E.extractFn (E.explainFn (d.prompt.getD "") (d.optimized.getD "") (d.mode.getD ""))
        = some x →
      (step E env .askExplain d s).outs = (headerMessage :: sectionBlocks x).map Out.msg
      ∧ (step E env .askExplain d s).outs = (format_explanation_to_messages x).map Out.msg
      ∧ Ev.logExplanation d.recordId x (E.logExplanationFn d.recordId x)
          ∈ (step E env .askExplain d s).events)
    ∧ (E.extractFn (E.explainFn (d.prompt.getD "") (d.optimized.getD "") (d.mode.getD ""))
        = none →
      (step E env .askExplain d s).outs
        = [Out.msg (E.explainFn (d.prompt.getD "") (d.optimized.getD "") (d.mode.getD ""))]
      ∧ ∀ rid x r2, Ev.logExplanation rid x r2 ∉ (step E env .askExplain d s).events) := by
  constructor
  · intro x hx
    refine ⟨?_, ?_, ?_⟩ <;> simp [step, hy, hx, format_eq_header_cons]
  · intro hx
    constructor <;> simp [step, hy, hx]

/-- C6 witness: with an extractor that finds no structured block, an
affirmative explain decision emits the raw explanation text. -/
theorem explain_structured_or_raw_witness :
    isYes "y" = true
    ∧ (step E0 env0 .askExplain initSession "y").outs = [Out.msg "e"]
    ∧ (∀ rid x r2, Ev.logExplanation rid x r2 ∉ (step E0 env0 .askExplain initSession "y").events) :=
  ⟨rfl, ((explain_structured_or_raw E0 env0 initSession "y" rfl).2 rfl).1,
    ((explain_structured_or_raw E0 env0 initSession "y" rfl).2 rfl).2⟩

/-- Equality of all session fields except the stored persistence record
id. -/
def SessionAgree (d d' : SessionData) : Prop :=
  d.prompt = d'.prompt ∧ d.mode = d'.mode ∧ d.optimized = d'.optimized
    ∧ d.questionsAsked = d'.questionsAsked ∧ d.preferences = d'.preferences

lemma step_persistence_agnostic (E : Engine)
    (f : String → String → String → Option String)
    (g : Option String → String → String → Option String → Option Unit)
    (h : Option String → ExplData → Option Unit) (env : EnvConfig)
    (st : ChatState) (d d' : SessionData) (x : String) (hd : SessionAgree d d') :
    (step E env st d x).state
      = (step { E with logOptimizeFn := f, logFollowupFn := g, logExplanationFn := h }
          env st d' x).state
    ∧ SessionAgree (step E env st d x).data
        ((step { E with logOptimizeFn := f, logFollowupFn := g, logExplanationFn := h }
          env st d' x).data)
    ∧ (step E env st d x).outs
      = (step { E with logOptimizeFn := f, logFollowupFn := g, logExplanationFn := h }
          env st d' x).outs := by
  obtain ⟨h1, h2, h3, h4, h5⟩ := hd
  cases st with
  | askPrompt => simp [step, SessionAgree, h1, h2, h3, h4, h5]
  | askMode =>
      by_cases hdr : (x == "deep_research") = true <;>
        simp [step, SessionAgree, hdr, h1, h2, h3, h4, h5]
  | askFollowup =>
      by_cases hys : isYes x = true <;> simp [step, SessionAgree, hys, h1, h2, h3, h4, h5]
  | collectQuestions => simp [step, SessionAgree, h1, h2, h3, h4, h5]
  | collectAnswers => simp [step, SessionAgree, h1, h2, h3, h4, h5]
  | askExplain =>
      by_cases hys : isYes x = true
      · cases hx : E.extractFn (E.explainFn (d'.prompt.getD "") (d'.optimized.getD "")
            (d'.mode.getD "")) <;>
          simp [step, SessionAgree, hys, h1, h2, h3, h4, h5, hx]
      · simp [step, SessionAgree, hys, h1, h2, h3, h4, h5]
  | done => exact ⟨rfl, ⟨h1, h2, h3, h4, h5⟩, rfl⟩

lemma run_persistence_agnostic (E : Engine)
    (f : String → String → String → Option String)
    (g : Option String → String → String → Option String → Option Unit)
    (h : Option String → ExplData → Option Unit) (env : EnvConfig) :
    ∀ (inputs : List String) (st : ChatState) (d d' : SessionData), SessionAgree d d' →
      (run E env st d inputs).state
        = (run { E with logOptimizeFn := f, logFollowupFn := g, logExplanationFn := h }
            env st d' inputs).state
      ∧ SessionAgree (run E env st d inputs).data
          ((run { E with logOptimizeFn := f, logFollowupFn := g, logExplanationFn := h }
            env st d' inputs).data)
      ∧ (run E env st d inputs).outs
        = (run { E with logOptimizeFn := f, logFollowupFn := g, logExplanationFn := h }
            env st d' inputs).outs := by
  intro inputs
  induction inputs with
  | nil =>
      intro st d d' hd
      exact ⟨rfl, hd, rfl⟩
  | cons x xs ih =>
      intro st d d' hd
      obtain ⟨hst, hdat, houts⟩ := step_persistence_agnostic E f g h env st d d' x hd
      simp only [run]
      rw [← hst]
      obtain ⟨rst, rdat, routs⟩ :=
        ih (step E env st d x).state (step E env st d x).data
          ((step { E with logOptimizeFn := f, logFollowupFn := g, logExplanationFn := h }
            env st d' x).data) hdat
      exact ⟨rst, rdat, by rw [houts, routs]⟩

lemma optimize_endpoint_text (E : Engine) (env : EnvConfig) (p m : String) :
    (optimize_endpoint E env p m).1.optimized_prompt = E.optimizeFn p m := by
  unfold optimize_endpoint
  split_ifs <;> rfl

lemma explain_endpoint_text (E : Engine) (env : EnvConfig) (o op mo : String) :
    (explain_endpoint E env o op mo).1 = E.explainFn o op mo := by
  unfold explain_endpoint
  split_ifs
  · cases hx : E.extractFn (E.explainFn o op mo) <;> simp [hx]
  · rfl

lemma followup_endpoint_text (E : Engine) (env : EnvConfig) (pid q a : String)
    (prefs : Option String) :
    (followup_endpoint E env pid q a prefs).1 = E.followupFn q a (prefs.getD "") := by
  unfold followup_endpoint
  split_ifs <;> rfl

/-- C7: replacing the three persistence operations by any others (in
particular by always-failing ones) changes neither the final state of a
conversation run nor any text sent or returned: the chat outputs are
identical, and each API endpoint still returns the same generated text. -/
theorem persistence_failure_preserves_flow (E : Engine)
    (f : String → String → String → Option String)
    (g : Option String → String → String → Option String → Option Unit)
    (h : Option String → ExplData → Option Unit) (env : EnvConfig)
    (p m o op mo pid q a : String) (prefs : Option String) (inputs : List String) :
    (runChat E env inputs).state
      = (runChat { E with logOptimizeFn := f, logFollowupFn := g, logExplanationFn := h }
          env inputs).state
    ∧ (runChat E env inputs).outs
      = (runChat { E with logOptimizeFn := f, logFollowupFn := g, logExplanationFn := h }
          env inputs).outs
    ∧ (optimize_endpoint E env p m).1.optimized_prompt
      = (optimize_endpoint
          { E with logOptimizeFn := f, logFollowupFn := g, logExplanationFn := h }
          env p m).1.optimized_prompt
    ∧ (explain_endpoint E env o op mo).1
      = (explain_endpoint
          { E with logOptimizeFn := f, logFollowupFn := g, logExplanationFn := h }
          env o op mo).1
    ∧ (followup_endpoint E env pid q a prefs).1
      = (followup_endpoint
          { E with logOptimizeFn := f, logFollowupFn := g, logExplanationFn := h }
          env pid q a prefs).1 := by
  have hagree : SessionAgree initSession initSession := ⟨rfl, rfl, rfl, rfl, rfl⟩
  obtain ⟨hst, _, houts⟩ :=
    run_persistence_agnostic E f g h env inputs .askPrompt initSession initSession hagree
  refine ⟨hst, houts, ?_, ?_, ?_⟩
  · rw [optimize_endpoint_text, optimize_endpoint_text]
  · rw [explain_endpoint_text, explain_endpoint_text]
  · rw [followup_endpoint_text, followup_endpoint_text]

/-- C7 witness: a concrete run with the always-failing persistence
operations produces the same outputs as with the succeeding ones. -/
theorem persistence_failure_preserves_flow_witness :
    (runChat E0 env0 ["p", "clarity", "y"]).outs
      = (runChat { E0 with logOptimizeFn := fun _ _ _ => none, logFollowupFn := fun _ _ _ _ => none, logExplanationFn := fun _ _ => none } env0 ["p", "clarity", "y"]).outs :=
  (persistence_failure_preserves_flow E0 (fun _ _ _ => none) (fun _ _ _ _ => none)
    (fun _ _ => none) env0 "p" "c" "o" "op" "mo" "pid" "q" "a" none
    ["p", "clarity", "y"]).2.1

/-- C8 counterexample: with both credentials absent, the chat flow of
`main.py` still attempts the optimize persistence call (its `handle_mode`
has no credential guard), and the followup endpoint still attempts its
persistence call (it guards only on a non-empty `prompt_id`). This refutes
the claim that every persistence call is skipped when credentials are
absent, in the API facade and the chat flow alike. -/
theorem credentials_skip_counterexample :
    envNone.hasSupabaseKey = false ∧ envNone.hasSupabaseUrl = false
    ∧ Ev.logOptimization "p" "p" "clarity" (some "rec-1")
        ∈ (runChat E0 envNone ["p", "clarity"]).events
    ∧ Ev.logFollowup (some "id7") "q" "q" (some "a") (some ())
        ∈ (followup_endpoint E0 envNone "id7" "q" "prior" (some "a")).2 := by
  refine ⟨rfl, rfl, ?_, ?_⟩
  · simp [runChat, run, step, E0, envNone]
  · simp [followup_endpoint, E0, envNone]

/-- C8 amended: when the credentials are absent, the optimize and explain
API endpoints skip their persistence calls; the followup endpoint consults
no credentials and skips persistence exactly when the record id is the
empty (falsy) string; and the chat flow attempts its optimize persistence
call regardless of configuration. -/
theorem credentials_gate_amended (E : Engine) (env : EnvConfig) (p m o op mo q a : String)
    (pid : String) (prefs : Option String) (d : SessionData) (x : String)
    (hcred : (env.hasSupabaseKey && env.hasSupabaseUrl) = false) :
    (∀ p2 o2 m2 r2, Ev.logOptimization p2 o2 m2 r2 ∉ (optimize_endpoint E env p m).2)
    ∧ (∀ rid x2 r2, Ev.logExplanation rid x2 r2 ∉ (explain_endpoint E env o op mo).2)
    ∧ (pid = "" →
        ∀ rid q2 a2 pr2 r2, Ev.logFollowup rid q2 a2 pr2 r2
          ∉ (followup_endpoint E env pid q a prefs).2)
    ∧ (pid ≠ "" →
        Ev.logFollowup (some pid) q (E.followupFn q a (prefs.getD "")) prefs
          (E.logFollowupFn (some pid) q (E.followupFn q a (prefs.getD "")) prefs)
          ∈ (followup_endpoint E env pid q a prefs).2)
    ∧ Ev.logOptimization (d.prompt.getD "") (E.optimizeFn (d.prompt.getD "") x) x
        (E.logOptimizeFn (d.prompt.getD "") (E.optimizeFn (d.prompt.getD "") x) x)
        ∈ (step E env .askMode d x).events := by
  refine ⟨?_, ?_, ?_, ?_, ?_⟩
  · intro p2 o2 m2 r2
    simp [optimize_endpoint, hcred]
  · intro rid x2 r2
    simp [explain_endpoint, hcred]
  · intro hpid rid q2 a2 pr2 r2
    simp [followup_endpoint, hpid]
  · intro hpid
    simp [followup_endpoint, hpid]
  · by_cases hdr : (x == "deep_research") = true <;> simp [step, hdr]

/-- C8 amended witness: with credentials absent, the optimize endpoint logs
nothing, and the chat optimize step still attempts its persistence call. -/
theorem credentials_gate_amended_witness :
    (envNone.hasSupabaseKey && envNone.hasSupabaseUrl) = false
    ∧ (∀ p2 o2 m2 r2, Ev.logOptimization p2 o2 m2 r2
        ∉ (optimize_endpoint E0 envNone "p" "clarity").2)
    ∧ Ev.logOptimization (initSession.prompt.getD "")
        (E0.optimizeFn (initSession.prompt.getD "") "clarity") "clarity"
        (E0.logOptimizeFn (initSession.prompt.getD "")
          (E0.optimizeFn (initSession.prompt.getD "") "clarity") "clarity")
        ∈ (step E0 envNone .askMode initSession "clarity").events :=
  ⟨rfl,
   (credentials_gate_amended E0 envNone "p" "clarity" "o" "op" "mo" "q" "a" "pid" none
      initSession "clarity" rfl).1,
   (credentials_gate_amended E0 envNone "p" "clarity" "o" "op" "mo" "q" "a" "pid" none
      initSession "clarity" rfl).2.2.2.2⟩

/-- The session data at the answer-collection state used by the C9
counterexample: questions and optimize result already stored. -/
def d9 : SessionData := ⟨none, none, some "o", none, some "q", none⟩

/-- C9 counterexample: the input `No` is not the string `no`, yet it is
normalized to empty preferences rather than passed through verbatim: the
follow-up call receives `""`. This refutes the claim that every input
other than `"no"` is passed through as the preferences verbatim. -/
theorem no_normalization_counterexample :
    ("No" : String) ≠ "no"
    ∧ (step E0 env0 .collectAnswers d9 "No").events.head?
        = some (Ev.followupCall "q" "o" "")
    ∧ ("" : String) ≠ "No" := by
  refine ⟨by decide, ?_, by decide⟩
  simp [step, d9, E0, pyLower]

/-- C9 amended: at the answer-collection step, an input whose lowercasing
equals `no` is normalized to empty preferences before the follow-up call
and before persistence; every input whose lowercasing is not `no` is passed
through verbatim to both. -/
theorem followup_answers_normalization (E : Engine) (env : EnvConfig) (d : SessionData)
    (s : String) :
    (pyLower s = "no" →
      (step E env .collectAnswers d s).events
        = [Ev.followupCall (d.questionsAsked.getD "") (d.optimized.getD "") "",
           Ev.logFollowup d.recordId (d.questionsAsked.getD "")
             (E.followupFn (d.questionsAsked.getD "") (d.optimized.getD "") "") (some "")
             (E.logFollowupFn d.recordId (d.questionsAsked.getD "")
               (E.followupFn (d.questionsAsked.getD "") (d.optimized.getD "") "") (some ""))])
    ∧ (pyLower s ≠ "no" →
      (step E env .collectAnswers d s).events
        = [Ev.followupCall (d.questionsAsked.getD "") (d.optimized.getD "") s,
           Ev.logFollowup d.recordId (d.questionsAsked.getD "")
             (E.followupFn (d.questionsAsked.getD "") (d.optimized.getD "") s) (some s)
             (E.logFollowupFn d.recordId (d.questionsAsked.getD "")
               (E.followupFn (d.questionsAsked.getD "") (d.optimized.getD "") s) (some s))]) := by
  constructor <;> intro h <;> simp [step, h]

/-- C9 amended witness: the input `no` is normalized to empty preferences
in the follow-up call and the persistence call. -/
theorem followup_answers_normalization_witness :
    pyLower "no" = "no"
    ∧ (step E0 env0 .collectAnswers d9 "no").events
        = [Ev.followupCall "q" "o" "",
           Ev.logFollowup (none : Option String) "q" "q" (some "") (some ())] :=
  ⟨by decide, (followup_answers_normalization E0 env0 d9 "no").1 (by decide)⟩

end Promptwise
